import Mathlib

/-!
Verification development for the py-cxx-builder repository.

Shallow embedding of `src/py_cxx_builder/__init__.py` (the `CXXBuilder`
orchestrator, the `ModiGCC` toolchain strategy, the staleness check) and
`src/py_cxx_builder/cli.py` (the `Embedder` utility and its CLI `main`).

Python dictionaries are embedded as association lists with insertion-order
semantics (updating an existing key keeps its position; a new key is appended),
matching CPython's `dict`.  Filesystem state is embedded as an association
list from path to file data.  External processes (`gcc`, `ar`, `cl`) are
embedded as parameters: an exit-code function for spawned commands, and a
success flag for the embedder's compile step.  Modification times are
embedded as naturals (only their order matters).
-/

namespace PyCxxBuilder

/-- `m[k] = v` on a Python dict embedded as an association list: if the key is
already present its value is replaced in place, otherwise the pair is appended
(CPython insertion-order semantics). -/
def dictInsert (m : List (String × α)) (k : String) (v : α) : List (String × α) :=
  if m.any (fun p => p.1 = k) then
    m.map (fun p => if p.1 = k then (k, v) else p)
  else
    m ++ [(k, v)]

/-- `del m[k]` (also used for the `if k in m: del m[k]` pattern). -/
def dictDelete (m : List (String × α)) (k : String) : List (String × α) :=
  m.filter (fun p => p.1 ≠ k)

/-- Host-dependent path primitives used by `CXXBuilder`, kept abstract:
`abspath` embeds `os.path.abspath` (depends on the process working
directory), `pathJoin` embeds `os.path.join`, and `objName` embeds the
object-path computation of `add_files` lines 219-220
(`"build/objs{sysver}/" + re.sub(...) + obj_ext` followed by
`os.path.normpath`), a pure string computation no claim depends on. -/
structure OSEnv where
  abspath : String → String
  pathJoin : String → String → String
  objName : String → String

/-- The fields of `CXXBuilder` the registry claims touch: `self.files`
(dict from resolved absolute source path to `[object path, kind]`) and
`self.mainsrc`. -/
structure Builder where
  files : List (String × String × Option String)
  mainsrc : Option String

/-- A freshly constructed builder: `self.files = dict()`, `self.mainsrc = None`. -/
def builder0 : Builder := { files := [], mainsrc := none }

/-- The resolved absolute source path of one `add_files` registration:
`os.path.abspath(fn if directory is None else os.path.join(directory, fn))`. -/
def resolveKey (env : OSEnv) (directory : Option String) (fn : String) : String :=
  env.abspath (match directory with
    | none => fn
    | some d => env.pathJoin d fn)

/-- The body of the `for fn in files` loop of `CXXBuilder.add_files`: skip a
falsy (empty) name, compute the object path and the resolved absolute source
path, then assign `self.files[fullfn] = [objn, kind]`. -/
def registerOne (env : OSEnv) (directory : Option String) (kind : Option String)
    (m : List (String × String × Option String)) (fn : String) :
    List (String × String × Option String) :=
  if fn = "" then m
  else dictInsert m (resolveKey env directory fn) (env.objName fn, kind)

/-- `CXXBuilder.add_files(files, directory, kind)`. -/
def add_files (env : OSEnv) (b : Builder) (files : List String)
    (directory : Option String) (kind : Option String) : Builder :=
  { b with files := files.foldl (registerOne env directory kind) b.files }

/-- `CXXBuilder.remove_files(files, directory)`. -/
def remove_files (env : OSEnv) (b : Builder) (files : List String)
    (directory : Option String) : Builder :=
  { b with files := files.foldl (fun m fn =>
      if fn = "" then m
      else dictDelete m (env.abspath (match directory with
        | none => fn
        | some d => d ++ "/" ++ fn))) b.files }

/-- `CXXBuilder.set_main_file(fn, directory)`: record the (unresolved) main
source path, then delete the resolved absolute path from the registry if
present.  (The `TEST_LINKER` scan of the file's bytes sets `_need_test_link`,
which no claim here touches.) -/
def set_main_file (env : OSEnv) (b : Builder) (fn : String)
    (directory : Option String) : Builder :=
  let fullfn0 := match directory with
    | none => fn
    | some d => d ++ "/" ++ fn
  { b with mainsrc := some fullfn0,
           files := dictDelete b.files (env.abspath fullfn0) }

/-- The resolved absolute path `set_main_file` deletes for a given call. -/
def mainKey (env : OSEnv) (fn : String) (directory : Option String) : String :=
  env.abspath (match directory with
    | none => fn
    | some d => d ++ "/" ++ fn)

/-- `CXXBuilder._need_compile(src, dst, kind)`.  `fs` maps a path to its
`st_mtime` when `os.stat` succeeds and to `none` when it raises
`FileNotFoundError`; `dirOf` embeds `os.path.dirname(src) or '.'`.  The
result is `none` when an unhandled exception escapes (a stat failure other
than the guarded one on `dst`). -/
def need_compile (fs : String → Option Nat) (dirOf : String → String)
    (src dst : String) (kind : Option String) : Option Bool :=
  match fs dst with
  | none => some true
  | some dstt =>
    match fs src with
    | none => none
    | some srct =>
      if dstt < srct then some true
      else if kind = some "embed" then some false
      else
        match fs (dirOf src) with
        | none => none
        | some srct2 => some (decide (dstt < srct2))

/-! ### Version parsing (build lines 248-252)

`build` starts with
`major, minor, patch = tuple([int(x) for x in self.version.split('.')])`;
an `int()` failure or a tuple-unpacking failure (not exactly three
components) raises before anything else happens. -/

/-- Accumulator form of reading a decimal digit string, as `int` does. -/
def digitsToNat : List Char → Nat → Nat
  | [], acc => acc
  | c :: rest, acc => digitsToNat rest (acc * 10 + (c.toNat - 48))

/-- Python `int(x)` on a string: optional surrounding whitespace, an optional
sign, then one or more decimal digits.  (CPython additionally accepts `_`
digit separators, which no claim depends on.)  `none` embeds the raised
`ValueError`. -/
def parseIntPy (s : String) : Option Int :=
  let t := (((s.toList.dropWhile Char.isWhitespace).reverse.dropWhile
      Char.isWhitespace)).reverse
  match t with
  | '-' :: ds =>
    if ds ≠ [] ∧ ds.all Char.isDigit then some (-(digitsToNat ds 0 : Int)) else none
  | '+' :: ds =>
    if ds ≠ [] ∧ ds.all Char.isDigit then some ((digitsToNat ds 0 : Int)) else none
  | ds =>
    if ds ≠ [] ∧ ds.all Char.isDigit then some ((digitsToNat ds 0 : Int)) else none

/-- Python `s.split('.')`: split on every dot, keeping empty pieces
(`"".split('.') == [""]`). -/
def splitDotAux : List Char → List Char → List String
  | [], acc => [String.mk acc.reverse]
  | c :: rest, acc =>
    if c = '.' then String.mk acc.reverse :: splitDotAux rest []
    else splitDotAux rest (c :: acc)

def splitDot (s : String) : List String :=
  splitDotAux s.toList []

/-- `tuple([int(x) for x in version.split('.')])` unpacked into three names:
`none` when any component fails to parse or when there are not exactly
three components. -/
def parseVersion (version : String) : Option (Int × Int × Int) :=
  match (splitDot version).mapM parseIntPy with
  | some [a, b, c] => some (a, b, c)
  | _ => none

/-- `CXXBuilder.add_macro(key, value=None)`: appends `(key, 1)` when no value
is given, `(key, value)` otherwise. -/
def add_macro (macros : List (String × Int)) (key : String) (value : Option Int) :
    List (String × Int) :=
  match value with
  | none => macros ++ [(key, 1)]
  | some v => macros ++ [(key, v)]

/-! ### The compile/archive phase of `build` (lines 274-294)

Spawned commands are embedded by an exit-code environment
`exitOf : String → Int` (the value `os.system(cmd)` returns), and
`os.path.isfile` by a predicate parameter. -/

inductive Outcome
  | ok
  | compileError
  | linkError
  | configError
deriving DecidableEq

structure DispatchResult where
  /-- the commands actually executed, in execution order -/
  compiled : List String
  /-- whether the archive step (compile-database dump plus the `ar`/`lib`
  command) ran -/
  archived : Bool
  outcome : Outcome
deriving DecidableEq

/-- The `nprocess == 1` branch: run each command with `os.system` in list
order, raising (and skipping the rest) at the first non-zero exit code.
Returns the commands actually invoked and whether all of them succeeded. -/
def seqRun (exitOf : String → Int) : List String → List String × Bool
  | [] => ([], true)
  | c :: rest =>
    if exitOf c = 0 then
      let r := seqRun exitOf rest
      (c :: r.1, r.2)
    else
      ([c], false)

/-- The `nprocess > 1` branch: `pool.apply_async` submits every command and
`res.get()` is awaited for each one, so all commands run to completion; the
collected codes are then checked and the build fails iff any is non-zero. -/
def parRun (exitOf : String → Int) (cmds : List String) : List String × Bool :=
  (cmds, (cmds.map exitOf).all (fun c => c = 0))

/-- Lines 274-294 of `CXXBuilder.build`: clamp the worker hint
(`os.cpu_count()` when `None`) to the number of stale commands, run the
parallel or serial branch, raise `compile error` on failure, then run the
archive step (`compile_commands.json` dump, the library command, and the
`utime` touch) only when `nprocess > 0 or not os.path.isfile(libfn)`,
raising `link error` on a non-zero archive exit code. -/
def dispatch (exitOf : String → Int) (isfile : String → Bool)
    (cmds : List String) (nprocessHint : Option Nat) (cpuCount : Nat)
    (libcmd libfn : String) : DispatchResult :=
  let np := min cmds.length (nprocessHint.getD cpuCount)
  let r :=
    if 1 < np then parRun exitOf cmds
    else if np = 1 then seqRun exitOf cmds
    else ([], true)
  if !r.2 then ⟨r.1, false, .compileError⟩
  else if 0 < np || !isfile libfn then
    if exitOf libcmd = 0 then ⟨r.1, true, .ok⟩
    else ⟨r.1, true, .linkError⟩
  else ⟨r.1, false, .ok⟩

structure BuildResult where
  macros : List (String × Int)
  dres : DispatchResult
deriving DecidableEq

/-- The opening of `CXXBuilder.build` (lines 248-252) chained with the
compile/archive phase: the version string is split and unpacked into exactly
three integers — a failure raises before anything else happens, so nothing
is executed — and the three version macros are appended to `self.macros`
first, before any command is computed or spawned.  The stale command list
and the archive command are parameters here (they are produced in between
by the registry walk and the toolchain strategy). -/
def buildRun (exitOf : String → Int) (isfile : String → Bool)
    (macros : List (String × Int)) (version : String)
    (cmds : List String) (nprocessHint : Option Nat) (cpuCount : Nat)
    (libcmd libfn : String) : BuildResult :=
  match parseVersion version with
  | none => ⟨macros, ⟨[], false, .configError⟩⟩
  | some (a, b, c) =>
    let m1 := add_macro macros "PROJ_MAJOR_VERSION" (some a)
    let m2 := add_macro m1 "PROJ_MINOR_VERSION" (some b)
    let m3 := add_macro m2 "PROJ_PATCH_VERSION" (some c)
    ⟨m3, dispatch exitOf isfile cmds nprocessHint cpuCount libcmd libfn⟩

/-! ### `ModiGCC.lib_cmd` (lines 122-125) -/

namespace ModiGCC

/-- `ModiGCC.lib_cmd(blder, name, objs)`: the archive command
`ar rcs "build/lib{name}.a" <objects>` with the object list sorted
lexicographically (`" ".join(sorted(objs))`), paired with the library path.
CPython's `sorted` is embedded as `insertionSort` under the string order:
on a linear order any correct sort returns the same list (sortedness plus
permutation determine it up to antisymmetry), so the choice of algorithm is
immaterial. -/
def lib_cmd (name : String) (objs : List String) : String × String :=
  let fname := "build/lib" ++ name ++ ".a"
  ("ar rcs \"" ++ fname ++ "\" " ++
      String.intercalate " " (objs.insertionSort (· ≤ ·)), fname)

end ModiGCC

/-! ### The embedding utility (`cli.py`) -/

/-- The generated C source of `Embedder.embed_file`, by content: the Python
code renders
`unsigned char const {var}_content[] = { <bytes>, 0 };` and
`unsigned int const {var}_size = sizeof({var}_content)-1;`.
`arrayInit` is the list of byte values in the array initializer (the input
bytes in order, then the `,0` sentinel) and `sizeConst` is the value of the
size constant, `sizeof` of the array (its element count) minus one. -/
structure CSource where
  var_name : String
  arrayInit : List Nat
  sizeConst : Nat
deriving DecidableEq

def embed_file (var_name : String) (content : List Nat) : CSource :=
  { var_name := var_name
    arrayInit := content ++ [0]
    sizeConst := (content ++ [0]).length - 1 }

/-- `re.sub(r'[.-]', '_', basename)` from `Embedder.__init__`. -/
def var_name_of (basename : String) : String :=
  basename.map (fun ch => if ch = '.' ∨ ch = '-' then '_' else ch)

/-- Data held by a regular file in the embedded filesystem. -/
inductive FileData
  /-- an ordinary file, read as raw bytes -/
  | bytes (bs : List Nat)
  /-- the intermediate generated `.c` file -/
  | csource (src : CSource)
  /-- the object compiled from a generated source -/
  | object (src : CSource)
deriving DecidableEq

/-- The filesystem: an association list from path to file data. -/
abbrev FSm := List (String × FileData)

def dictGet (m : List (String × α)) (k : String) : Option α :=
  (m.find? (fun p => p.1 = k)).map (fun p => p.2)

def fsLookup (fs : FSm) (p : String) : Option FileData := dictGet fs p

def fsWrite (fs : FSm) (p : String) (d : FileData) : FSm := dictInsert fs p d

def fsRemove (fs : FSm) (p : String) : FSm := dictDelete fs p

/-- `os.path.isfile` in the model: every filesystem entry is a regular file. -/
def isfileF (fs : FSm) (p : String) : Bool := (fsLookup fs p).isSome

/-- `Embedder.run()` with the paths precomputed by `__init__`: read the
input's bytes, write the generated source, compile it (the compiler is
external; its success is the `compileOk` parameter — on failure
`compile_c_file` calls `sys.exit(1)` before `clean_up` runs), then remove
the generated source and finish with exit code 0.  The embedder is only
ever invoked on the user's raw-byte input file; an unreadable input makes
the uncaught `open` error terminate the process with a non-zero code and no
writes. -/
def embedderRun (compileOk : Bool) (fs : FSm)
    (input_filename c_filename output_obj var_name : String) : FSm × Nat :=
  match fsLookup fs input_filename with
  | some (.bytes content) =>
    let src := embed_file var_name content
    let fs1 := fsWrite fs c_filename (.csource src)
    if compileOk then
      let fs2 := fsWrite fs1 output_obj (.object src)
      (fsRemove fs2 c_filename, 0)
    else (fs1, 1)
  | _ => (fs, 1)

/-- `main()` in `cli.py`: the argument-count check and subcommand match
(anything but a 4-element `argv` whose second entry is `embed` prints usage
and exits 1), the `os.path.isfile` guard (exit 1 before an `Embedder` is
even constructed, leaving the filesystem untouched), then
`Embedder(input, output).run()`.  `mkPaths` embeds the path computations of
`Embedder.__init__` (`basename`/`dirname`/`isdir` juggling), returning the
generated-source path and the object path; `basename` embeds
`os.path.basename`. -/
def cliMain (compileOk : Bool) (mkPaths : String → String → String × String)
    (basename : String → String) (fs : FSm) (argv : List String) : FSm × Nat :=
  match argv with
  | [_prog, "embed", input_filename, output_obj] =>
    if isfileF fs input_filename then
      let p := mkPaths input_filename output_obj
      embedderRun compileOk fs input_filename p.1 p.2
        (var_name_of (basename input_filename))
    else (fs, 1)
  | _ => (fs, 1)

/-! ### Association-list lemmas for the dict embedding -/

theorem find?_filter_of_imp (l : List α) (p q : α → Bool)
    (h : ∀ x, p x = true → q x = true) : (l.filter q).find? p = l.find? p := by
  induction l with
  | nil => rfl
  | cons x xs ih =>
    by_cases hq : q x = true
    · rw [List.filter_cons_of_pos hq]
      by_cases hp : p x = true
      · rw [List.find?_cons_of_pos _ hp, List.find?_cons_of_pos _ hp]
      · rw [List.find?_cons_of_neg _ hp, List.find?_cons_of_neg _ hp, ih]
    · have hp : ¬ p x = true := fun hpx => hq (h x hpx)
      rw [List.filter_cons_of_neg hq, List.find?_cons_of_neg _ hp, ih]

theorem find?_append_of_none (l₁ l₂ : List α) (p : α → Bool)
    (h : l₁.find? p = none) : (l₁ ++ l₂).find? p = l₂.find? p := by
  induction l₁ with
  | nil => rfl
  | cons x xs ih =>
    by_cases hp : p x = true
    · rw [List.find?_cons_of_pos _ hp] at h; exact absurd h (by simp)
    · rw [List.find?_cons_of_neg _ hp] at h
      rw [List.cons_append, List.find?_cons_of_neg _ hp, ih h]

theorem find?_map_replace (m : List (String × α)) (k : String) (v : α) :
    ((m.map (fun p => if p.1 = k then (k, v) else p)).find? (fun p => p.1 = k))
      = if m.any (fun p => p.1 = k) then some (k, v) else none := by
  induction m with
  | nil => rfl
  | cons x xs ih =>
    by_cases hx : x.1 = k
    · simp [hx, List.find?]
    · have hd : decide (x.1 = k) = false := decide_eq_false hx
      rw [List.map_cons, if_neg hx, List.find?_cons_of_neg _ (by simpa using hx), ih,
        List.any_cons, hd, Bool.false_or]

theorem dictGet_insert_self (m : List (String × α)) (k : String) (v : α) :
    dictGet (dictInsert m k v) k = some v := by
  unfold dictInsert dictGet
  by_cases hany : m.any (fun p => p.1 = k) = true
  · simp only [hany, if_true]
    rw [find?_map_replace]
    simp [hany]
  · have hnone : m.find? (fun p => p.1 = k) = none := by
      rw [List.find?_eq_none]
      intro x hx
      simp only [Bool.not_eq_true]
      by_contra hxk
      exact hany (List.any_eq_true.mpr ⟨x, hx, by simpa using hxk⟩)
    simp only [hany, if_false, Bool.false_eq_true]
    rw [find?_append_of_none _ _ _ hnone]
    simp [List.find?]

theorem find?_map_replace_ne (m : List (String × α)) (k k' : String) (v : α)
    (h : k' ≠ k) :
    ((m.map (fun p => if p.1 = k then (k, v) else p)).find? (fun p => p.1 = k'))
      = m.find? (fun p => p.1 = k') := by
  induction m with
  | nil => rfl
  | cons x xs ih =>
    have hne : ¬ (k = k') := fun hk => h hk.symm
    by_cases hx : x.1 = k
    · have h2 : ¬ (x.1 = k') := by rw [hx]; exact hne
      simp only [List.map_cons, if_pos hx]
      rw [List.find?_cons_of_neg _ (by simpa using hne),
        List.find?_cons_of_neg _ (by simpa using h2), ih]
    · simp only [List.map_cons, if_neg hx]
      by_cases hx' : x.1 = k'
      · rw [List.find?_cons_of_pos _ (by simpa using hx'),
          List.find?_cons_of_pos _ (by simpa using hx')]
      · rw [List.find?_cons_of_neg _ (by simpa using hx'),
          List.find?_cons_of_neg _ (by simpa using hx'), ih]

theorem dictGet_insert_ne (m : List (String × α)) (k k' : String) (v : α)
    (h : k' ≠ k) : dictGet (dictInsert m k v) k' = dictGet m k' := by
  unfold dictInsert dictGet
  by_cases hany : m.any (fun p => p.1 = k) = true
  · simp only [hany, if_true]
    rw [find?_map_replace_ne _ _ _ _ h]
  · simp only [hany, if_false, Bool.false_eq_true]
    have hne : ¬ (k = k') := fun hk => h hk.symm
    by_cases hfind : m.find? (fun p => decide (p.1 = k')) = none
    · rw [find?_append_of_none _ _ _ hfind, hfind]
      rw [List.find?_cons_of_neg _ (by simpa using hne)]
      rfl
    · obtain ⟨x, hx⟩ := Option.ne_none_iff_exists'.mp hfind
      rw [List.find?_append, hx]
      simp

theorem dictGet_delete_self (m : List (String × α)) (k : String) :
    dictGet (dictDelete m k) k = none := by
  unfold dictDelete dictGet
  have : (m.filter (fun p => p.1 ≠ k)).find? (fun p => p.1 = k) = none := by
    rw [List.find?_eq_none]
    intro x hx
    have := (List.mem_filter.mp hx).2
    simpa using this
  simp [this]

theorem dictGet_delete_ne (m : List (String × α)) (k k' : String)
    (h : k' ≠ k) : dictGet (dictDelete m k) k' = dictGet m k' := by
  unfold dictDelete dictGet
  rw [find?_filter_of_imp]
  intro x hx
  simp only [decide_eq_true_eq] at hx
  simpa [hx] using h

/-- The keys of an embedded dict. -/
def keysOf (m : List (String × α)) : List String := m.map Prod.fst

/-- The structural invariant of the dict embedding: keys are pairwise
distinct. -/
def KeysNodup (m : List (String × α)) : Prop := (keysOf m).Nodup

theorem keysOf_insert (m : List (String × α)) (k : String) (v : α) :
    keysOf (dictInsert m k v) =
      if m.any (fun p => p.1 = k) then keysOf m else keysOf m ++ [k] := by
  unfold dictInsert keysOf
  by_cases hany : m.any (fun p => p.1 = k) = true
  · simp only [hany, if_true, List.map_map]
    refine List.map_congr_left ?_
    intro p _
    by_cases hp : p.1 = k
    · simp [hp]
    · simp [hp]
  · simp [hany]

theorem keysNodup_insert (m : List (String × α)) (k : String) (v : α)
    (h : KeysNodup m) : KeysNodup (dictInsert m k v) := by
  unfold KeysNodup
  rw [keysOf_insert]
  by_cases hany : m.any (fun p => p.1 = k) = true
  · simpa [hany] using h
  · simp only [hany, if_false, Bool.false_eq_true]
    refine List.Nodup.append h (List.nodup_singleton k) ?_
    intro a ha hk
    rw [List.mem_singleton] at hk
    subst hk
    obtain ⟨p, hp, hpk⟩ := List.mem_map.mp ha
    exact hany (List.any_eq_true.mpr ⟨p, hp, by simpa using hpk⟩)

theorem keysNodup_delete (m : List (String × α)) (k : String)
    (h : KeysNodup m) : KeysNodup (dictDelete m k) := by
  unfold KeysNodup keysOf at h ⊢
  exact ((List.filter_sublist m).map Prod.fst).nodup h

theorem filter_map_replace_nil (xs : List (String × α)) (k : String) (v : α)
    (hk : ∀ q ∈ xs, ¬ q.1 = k) :
    (xs.map (fun p => if p.1 = k then (k, v) else p)).filter
      (fun p => p.1 = k) = [] := by
  induction xs with
  | nil => rfl
  | cons x xs ih =>
    have hx : ¬ x.1 = k := hk x (List.mem_cons_self x xs)
    rw [List.map_cons, if_neg hx, List.filter_cons_of_neg (by simpa using hx)]
    exact ih (fun q hq => hk q (List.mem_cons_of_mem x hq))

theorem filter_map_replace_self (m : List (String × α)) (k : String) (v : α)
    (hnd : KeysNodup m) :
    (m.map (fun p => if p.1 = k then (k, v) else p)).filter (fun p => p.1 = k)
      = if m.any (fun p => p.1 = k) then [(k, v)] else [] := by
  induction m with
  | nil => rfl
  | cons x xs ih =>
    have hnd1 : x.1 ∉ keysOf xs := (List.nodup_cons.mp hnd).1
    have hnd2 : KeysNodup xs := (List.nodup_cons.mp hnd).2
    by_cases hx : x.1 = k
    · have hnone : ∀ q ∈ xs, ¬ q.1 = k := by
        intro q hq hqk
        exact hnd1 (by rw [hx, ← hqk]; exact List.mem_map_of_mem Prod.fst hq)
      rw [List.map_cons, if_pos hx, List.filter_cons_of_pos (by simp),
        filter_map_replace_nil xs k v hnone, List.any_cons]
      simp [hx]
    · rw [List.map_cons, if_neg hx, List.filter_cons_of_neg (by simpa using hx),
        ih hnd2, List.any_cons, decide_eq_false hx, Bool.false_or]

theorem filter_insert_self (m : List (String × α)) (k : String) (v : α)
    (hnd : KeysNodup m) :
    (dictInsert m k v).filter (fun p => p.1 = k) = [(k, v)] := by
  unfold dictInsert
  by_cases hany : m.any (fun p => p.1 = k) = true
  · rw [if_pos hany, filter_map_replace_self m k v hnd, if_pos hany]
  · rw [if_neg hany, List.filter_append]
    have hnil : m.filter (fun p => p.1 = k) = [] := by
      refine List.filter_eq_nil_iff.mpr ?_
      intro p hp hpk
      exact hany (List.any_eq_true.mpr ⟨p, hp, hpk⟩)
    rw [hnil, List.nil_append, List.filter_cons_of_pos (by simp), List.filter_nil]

theorem foldl_preserve {P : α → Prop} {f : α → β → α}
    (h : ∀ m a, P m → P (f m a)) :
    ∀ (l : List β) (m : α), P m → P (l.foldl f m) := by
  intro l
  induction l with
  | nil => intro m hm; exact hm
  | cons a l ih => intro m hm; exact ih _ (h m a hm)

theorem registerOne_keysNodup (env : OSEnv) (directory kind : Option String)
    (m : List (String × String × Option String)) (fn : String)
    (h : KeysNodup m) : KeysNodup (registerOne env directory kind m fn) := by
  unfold registerOne
  by_cases hfn : fn = ""
  · simpa [hfn] using h
  · simpa [hfn] using keysNodup_insert _ _ _ h

theorem add_files_keysNodup (env : OSEnv) (b : Builder) (files : List String)
    (directory kind : Option String) (h : KeysNodup b.files) :
    KeysNodup (add_files env b files directory kind).files := by
  unfold add_files
  exact foldl_preserve (registerOne_keysNodup env directory kind) files b.files h

/-- One `add_files` call, as an event. -/
structure AddCall where
  files : List String
  directory : Option String
  kind : Option String

/-- A sequence of `add_files` calls applied to a freshly constructed
builder. -/
def applyAdds (env : OSEnv) (calls : List AddCall) : Builder :=
  calls.foldl (fun b c => add_files env b c.files c.directory c.kind) builder0

theorem applyAdds_keysNodup (env : OSEnv) (calls : List AddCall) :
    KeysNodup (applyAdds env calls).files := by
  unfold applyAdds
  refine foldl_preserve (P := fun b : Builder => KeysNodup b.files) ?_ calls builder0 ?_
  · intro b c hb
    exact add_files_keysNodup env b c.files c.directory c.kind hb
  · exact List.nodup_nil

/-! ### Lemmas about the serial execution branch -/

theorem seqRun_all_ok (exitOf : String → Int) :
    ∀ cmds : List String, (∀ x ∈ cmds, exitOf x = 0) →
      seqRun exitOf cmds = (cmds, true) := by
  intro cmds
  induction cmds with
  | nil => intro _; rfl
  | cons c rest ih =>
    intro h
    have hc : exitOf c = 0 := h c (List.mem_cons_self c rest)
    have hr := ih (fun x hx => h x (List.mem_cons_of_mem c hx))
    simp [seqRun, hc, hr]

theorem seqRun_fail_fast (exitOf : String → Int) (c : String)
    (post : List String) (hc : exitOf c ≠ 0) :
    ∀ pre : List String, (∀ x ∈ pre, exitOf x = 0) →
      seqRun exitOf (pre ++ c :: post) = (pre ++ [c], false) := by
  intro pre
  induction pre with
  | nil => intro _; simp [seqRun, hc]
  | cons x xs ih =>
    intro h
    have hx : exitOf x = 0 := h x (List.mem_cons_self x xs)
    have hr := ih (fun y hy => h y (List.mem_cons_of_mem x hy))
    simp [seqRun, hx, hr]

/-! ### Concrete environments used to instantiate the claims -/

/-- A concrete path environment: absolute paths are the identity, joining is
slash concatenation, object names append `.o`. -/
def envId : OSEnv :=
  { abspath := id
    pathJoin := fun d fn => d ++ "/" ++ fn
    objName := fun fn => fn ++ ".o" }

/-- A concrete exit-code environment: the command `"bad"` fails with code 1,
every other command succeeds. -/
def exitEx : String → Int := fun s => if s = "bad" then 1 else 0

/-! ### Claims -/

/-- C1 (counterexample): the claim as stated is false on the code — with
zero stale commands and the static library already on disk
(`isfile libfn = true`), `build` skips the archive step entirely
(`archived = false`) rather than refreshing the library. -/
theorem C1_counterexample :
    dispatch (fun _ => 0) (fun _ => true) [] (some 4) 4
        "ar rcs lib.a" "build/liba.a" = ⟨[], false, .ok⟩ := by
  decide

/-- C1 (amended): when zero jobs need compiling, no compiler process is
spawned, and the archive step runs exactly when the static library file is
missing (the guard is `nprocess > 0 or not os.path.isfile(libfn)` with
`nprocess = 0`). -/
theorem C1_zero_jobs_archive_iff_missing (exitOf : String → Int)
    (isfile : String → Bool) (nprocessHint : Option Nat) (cpuCount : Nat)
    (libcmd libfn : String) :
    (dispatch exitOf isfile [] nprocessHint cpuCount libcmd libfn).compiled = [] ∧
    (dispatch exitOf isfile [] nprocessHint cpuCount libcmd libfn).archived
      = !isfile libfn := by
  cases hf : isfile libfn <;> by_cases he : exitOf libcmd = 0 <;>
    simp [dispatch, hf, he]

/-- C3: with a worker hint of 1, the stale commands run sequentially in list
(registration) order and execution aborts at the first command with a
non-zero exit code: the commands after it are never invoked, the archive
step is not reached, and the build fails with the generic compile error. -/
theorem C3_serial_fail_fast (exitOf : String → Int) (isfile : String → Bool)
    (cpuCount : Nat) (libcmd libfn : String) (pre : List String) (c : String)
    (post : List String) (hpre : ∀ x ∈ pre, exitOf x = 0) (hc : exitOf c ≠ 0) :
    dispatch exitOf isfile (pre ++ c :: post) (some 1) cpuCount libcmd libfn
      = ⟨pre ++ [c], false, .compileError⟩ := by
  have hmin : min (pre ++ c :: post).length 1 = 1 := by
    simp only [List.length_append, List.length_cons]
    omega
  have hpos : 1 ≤ pre.length + (post.length + 1) := by omega
  have hrun := seqRun_fail_fast exitOf c post hc pre hpre
  simp [dispatch, hmin, hrun, hpos]

/-- C3 witness: a concrete three-command serial build where the second
command fails — only the first two commands run and the build ends in a
compile error. -/
theorem C3_witness :
    (∀ x ∈ ["gcc -c a.cpp"], exitEx x = 0) ∧ exitEx "bad" ≠ 0 ∧
    dispatch exitEx (fun _ => true) (["gcc -c a.cpp"] ++ "bad" :: ["gcc -c b.cpp"])
        (some 1) 8 "ar rcs" "lib.a"
      = ⟨["gcc -c a.cpp"] ++ ["bad"], false, .compileError⟩ :=
  ⟨by decide, by decide,
    C3_serial_fail_fast exitEx (fun _ => true) 8 "ar rcs" "lib.a"
      ["gcc -c a.cpp"] "bad" ["gcc -c b.cpp"] (by decide) (by decide)⟩

/-- C4: with more than one stale command and a worker hint at least the
number of commands, every command is dispatched and runs to completion
(`compiled` is the whole list, regardless of failures), and the build raises
the generic compile error iff at least one collected exit code is
non-zero. -/
theorem C4_parallel_runs_all (exitOf : String → Int) (isfile : String → Bool)
    (cmds : List String) (hint : Nat) (cpuCount : Nat) (libcmd libfn : String)
    (h1 : 1 < cmds.length) (h2 : cmds.length ≤ hint) :
    (dispatch exitOf isfile cmds (some hint) cpuCount libcmd libfn).compiled
        = cmds ∧
    ((dispatch exitOf isfile cmds (some hint) cpuCount libcmd libfn).outcome
        = .compileError ↔ ∃ c ∈ cmds, exitOf c ≠ 0) := by
  have hmin : min cmds.length hint = cmds.length := Nat.min_eq_left h2
  have h0 : 0 < cmds.length := by omega
  have hallIff : ((cmds.map exitOf).all (fun c => decide (c = 0)) = true)
      ↔ ∀ c ∈ cmds, exitOf c = 0 := by
    simp [List.all_eq_true]
  have hd : dispatch exitOf isfile cmds (some hint) cpuCount libcmd libfn
      = if (cmds.map exitOf).all (fun c => decide (c = 0)) then
          (if exitOf libcmd = 0 then ⟨cmds, true, .ok⟩
            else ⟨cmds, true, .linkError⟩)
        else ⟨cmds, false, .compileError⟩ := by
    cases hb : (cmds.map exitOf).all (fun c => decide (c = 0)) <;>
      by_cases he : exitOf libcmd = 0 <;>
        simp [dispatch, parRun, hmin, h1, h0, hb, he]
  constructor
  · rw [hd]
    split_ifs <;> rfl
  · rw [hd]
    by_cases hz : ∀ c ∈ cmds, exitOf c = 0
    · rw [if_pos (hallIff.mpr hz)]
      constructor
      · intro hout
        exfalso
        by_cases he : exitOf libcmd = 0 <;> simp [he] at hout
      · rintro ⟨c, hc, hcz⟩
        exact absurd (hz c hc) hcz
    · have hb : ¬ ((cmds.map exitOf).all (fun c => decide (c = 0)) = true) :=
        fun h => hz (hallIff.mp h)
      rw [if_neg hb]
      push_neg at hz
      exact ⟨fun _ => hz, fun _ => rfl⟩

/-- C4 witness: two commands, hint 2, the second fails — both are still
dispatched and the outcome is the compile error. -/
theorem C4_witness :
    1 < (["gcc -c a.cpp", "bad"] : List String).length ∧
    (["gcc -c a.cpp", "bad"] : List String).length ≤ 2 ∧
    ((dispatch exitEx (fun _ => true) ["gcc -c a.cpp", "bad"] (some 2) 8
        "ar rcs" "lib.a").compiled = ["gcc -c a.cpp", "bad"] ∧
      ((dispatch exitEx (fun _ => true) ["gcc -c a.cpp", "bad"] (some 2) 8
          "ar rcs" "lib.a").outcome = .compileError
        ↔ ∃ c ∈ ["gcc -c a.cpp", "bad"], exitEx c ≠ 0)) :=
  ⟨by decide, by decide,
    C4_parallel_runs_all exitEx (fun _ => true) ["gcc -c a.cpp", "bad"] 2 8
      "ar rcs" "lib.a" (by decide) (by decide)⟩

/-- C6: the version string `"1.2.3"` decomposes into the three macros
`PROJ_MAJOR_VERSION=1`, `PROJ_MINOR_VERSION=2`, `PROJ_PATCH_VERSION=3`,
appended before anything else the build sequence does; the two-component
string `"1.2"` makes the build raise at that first step, before any process
is spawned (nothing compiled, nothing archived). -/
theorem C6_version_macros (exitOf : String → Int) (isfile : String → Bool)
    (macros : List (String × Int)) (cmds : List String)
    (nprocessHint : Option Nat) (cpuCount : Nat) (libcmd libfn : String) :
    (buildRun exitOf isfile macros "1.2.3" cmds nprocessHint cpuCount
        libcmd libfn).macros
      = macros ++ [("PROJ_MAJOR_VERSION", 1), ("PROJ_MINOR_VERSION", 2),
          ("PROJ_PATCH_VERSION", 3)] ∧
    buildRun exitOf isfile macros "1.2" cmds nprocessHint cpuCount libcmd libfn
      = ⟨macros, ⟨[], false, .configError⟩⟩ := by
  constructor
  · have h : parseVersion "1.2.3" = some (1, 2, 3) := by decide
    simp [buildRun, h, add_macro]
  · have h : parseVersion "1.2" = none := by decide
    simp [buildRun, h]

/-- C2: the staleness check returns true when the output is missing; true
when the output is older than the source; false for the `embed` kind as
soon as the output exists and is not older than the source (no directory
stat happens); and for every other kind true exactly when the output is
older than the source's containing directory. -/
theorem C2_need_compile_spec (fs : String → Option Nat) (dirOf : String → String)
    (src dst : String) (kind : Option String) :
    (fs dst = none → need_compile fs dirOf src dst kind = some true) ∧
    (∀ dstt srct, fs dst = some dstt → fs src = some srct → dstt < srct →
      need_compile fs dirOf src dst kind = some true) ∧
    (∀ dstt srct, fs dst = some dstt → fs src = some srct → ¬ dstt < srct →
      kind = some "embed" → need_compile fs dirOf src dst kind = some false) ∧
    (∀ dstt srct srct2, fs dst = some dstt → fs src = some srct → ¬ dstt < srct →
      kind ≠ some "embed" → fs (dirOf src) = some srct2 →
      (need_compile fs dirOf src dst kind = some true ↔ dstt < srct2)) := by
  refine ⟨?_, ?_, ?_, ?_⟩
  · intro h
    simp [need_compile, h]
  · intro dstt srct hdst hsrc hlt
    simp [need_compile, hdst, hsrc, hlt]
  · intro dstt srct hdst hsrc hlt hk
    simp [need_compile, hdst, hsrc, hlt, hk]
  · intro dstt srct srct2 hdst hsrc hlt hk hdir
    simp [need_compile, hdst, hsrc, hlt, hk, hdir]

/-- A concrete mtime environment for the staleness witness: the object is
newer than the source but older than the source's directory. -/
def fsEx : String → Option Nat := fun p =>
  if p = "out.o" then some 5
  else if p = "in.c" then some 3
  else if p = "." then some 9
  else none

/-- C2 witness: with the object at mtime 5, the source at 3 and the
directory at 9, a non-embed entry is stale. -/
theorem C2_witness :
    fsEx "out.o" = some 5 ∧ fsEx "in.c" = some 3 ∧ ¬ (5 : Nat) < 3 ∧
    (none : Option String) ≠ some "embed" ∧ fsEx "." = some 9 ∧
    (need_compile fsEx (fun _ => ".") "in.c" "out.o" none = some true
      ↔ (5 : Nat) < 9) :=
  ⟨rfl, rfl, by decide, by decide, rfl,
    (C2_need_compile_spec fsEx (fun _ => ".") "in.c" "out.o" none).2.2.2 5 3 9
      rfl rfl (by decide) (by decide) rfl⟩

/-- C5 (counterexample): the claim as stated is false on the code — after
`set_main_file("a.c")` followed by `add_files(["a.c"])`, the registry again
holds an entry whose key is the main file's resolved absolute path
(`add_files` never consults `mainsrc`). -/
theorem C5_counterexample :
    (add_files envId (set_main_file envId builder0 "a.c" none)
        ["a.c"] none none).mainsrc = some "a.c" ∧
    ((add_files envId (set_main_file envId builder0 "a.c" none)
        ["a.c"] none none).files.any
      (fun p => p.1 = envId.abspath "a.c")) = true := by
  constructor
  · rfl
  · decide

/-- C5 (amended): immediately after any `set_main_file` call, the registry
holds no entry for the main file's resolved absolute path (the call deletes
it); the invariant does not survive later `add_files` calls, which can
re-register that path. -/
theorem C5_set_main_file_removes_entry (env : OSEnv) (b : Builder)
    (fn : String) (directory : Option String) :
    ((set_main_file env b fn directory).files.all
      (fun p => p.1 ≠ mainKey env fn directory)) = true := by
  rw [List.all_eq_true]
  intro p hp
  have := (List.mem_filter.mp hp).2
  cases directory <;> simpa [mainKey] using this

/-- C7: after any sequence of `add_files` calls on a fresh builder, one more
registration of a file name leaves exactly one registry entry for its
resolved absolute path, and that entry holds the object path and kind of
this most recent registration. -/
theorem C7_registry_last_wins (env : OSEnv) (calls : List AddCall)
    (fn : String) (directory kind : Option String) (hfn : fn ≠ "") :
    ((add_files env (applyAdds env calls) [fn] directory kind).files.filter
        (fun p => p.1 = resolveKey env directory fn))
      = [(resolveKey env directory fn, env.objName fn, kind)] := by
  have hnd := applyAdds_keysNodup env calls
  show ((List.foldl (registerOne env directory kind)
      (applyAdds env calls).files [fn]).filter _) = _
  simp only [List.foldl_cons, List.foldl_nil]
  rw [registerOne, if_neg hfn]
  exact filter_insert_self _ _ _ hnd

/-- C7 witness: registering `a.c` twice, the second time with the `embed`
kind, leaves a single entry carrying the second registration's values. -/
theorem C7_witness :
    ("a.c" : String) ≠ "" ∧
    ((add_files envId (applyAdds envId [⟨["a.c"], none, none⟩])
        ["a.c"] none (some "embed")).files.filter
      (fun p => p.1 = resolveKey envId none "a.c"))
      = [(resolveKey envId none "a.c", envId.objName "a.c", some "embed")] :=
  ⟨by decide,
    C7_registry_last_wins envId [⟨["a.c"], none, none⟩] "a.c" none
      (some "embed") (by decide)⟩

/-- C8: for an input of N bytes, the generated source's array initializer is
the N input bytes in order followed by the sentinel byte 0 and the size
constant equals N (`sizeof` of the array minus one); after a successful run
the intermediate generated source no longer exists while the compiled
object does; and the exit code is 0 iff the compile step succeeded. -/
theorem C8_embedder_roundtrip (compileOk : Bool) (fs : FSm)
    (input_filename c_filename output_obj var_name : String)
    (content : List Nat)
    (hin : fsLookup fs input_filename = some (.bytes content))
    (hne : c_filename ≠ output_obj) :
    (embed_file var_name content).arrayInit = content ++ [0] ∧
    (embed_file var_name content).sizeConst = content.length ∧
    (compileOk = true →
      fsLookup (embedderRun compileOk fs input_filename c_filename output_obj
          var_name).1 c_filename = none ∧
      fsLookup (embedderRun compileOk fs input_filename c_filename output_obj
          var_name).1 output_obj
        = some (.object (embed_file var_name content))) ∧
    ((embedderRun compileOk fs input_filename c_filename output_obj
        var_name).2 = 0 ↔ compileOk = true) := by
  refine ⟨rfl, by simp [embed_file], ?_, ?_⟩
  · intro hok
    subst hok
    have h1 : embedderRun true fs input_filename c_filename output_obj var_name
        = (fsRemove (fsWrite (fsWrite fs c_filename
              (.csource (embed_file var_name content))) output_obj
              (.object (embed_file var_name content))) c_filename, 0) := by
      simp [embedderRun, hin]
    rw [h1]
    constructor
    · exact dictGet_delete_self _ _
    · show dictGet (dictDelete _ _) _ = _
      rw [dictGet_delete_ne _ _ _ (fun h => hne h.symm)]
      exact dictGet_insert_self _ _ _
  · cases compileOk <;> simp [embedderRun, hin]

/-- The two-byte input file of the C8 witness. -/
def fsEmbedEx : FSm := [("foo.bin", .bytes [0x41, 0x42])]

/-- C8 witness: embedding `foo.bin` containing bytes 0x41 0x42 with a
successful compile yields the two bytes plus the sentinel, size constant 2,
a deleted intermediate source, the object on disk, and exit code 0. -/
theorem C8_witness :
    fsLookup fsEmbedEx "foo.bin" = some (.bytes [0x41, 0x42]) ∧
    ("foo.bin.c" : String) ≠ "foo.bin.o" ∧
    ((embed_file "foo_bin" [0x41, 0x42]).arrayInit = [0x41, 0x42] ++ [0] ∧
      (embed_file "foo_bin" [0x41, 0x42]).sizeConst = [0x41, 0x42].length ∧
      (true = true →
        fsLookup (embedderRun true fsEmbedEx "foo.bin" "foo.bin.c" "foo.bin.o"
            "foo_bin").1 "foo.bin.c" = none ∧
        fsLookup (embedderRun true fsEmbedEx "foo.bin" "foo.bin.c" "foo.bin.o"
            "foo_bin").1 "foo.bin.o"
          = some (.object (embed_file "foo_bin" [0x41, 0x42]))) ∧
      ((embedderRun true fsEmbedEx "foo.bin" "foo.bin.c" "foo.bin.o"
          "foo_bin").2 = 0 ↔ true = true)) :=
  ⟨by decide, by decide,
    C8_embedder_roundtrip true fsEmbedEx "foo.bin" "foo.bin.c" "foo.bin.o"
      "foo_bin" [0x41, 0x42] (by decide) (by decide)⟩

/-- C9: invoking the embedding CLI with an input path that is not an
existing regular file exits with code 1 before anything is generated or
compiled: the filesystem is returned unchanged, so no output object is
produced. -/
theorem C9_missing_input (compileOk : Bool)
    (mkPaths : String → String → String × String) (basename : String → String)
    (fs : FSm) (prog input_filename output_obj : String)
    (h : fsLookup fs input_filename = none) :
    cliMain compileOk mkPaths basename fs
      [prog, "embed", input_filename, output_obj] = (fs, 1) := by
  simp [cliMain, isfileF, h]

/-- C9 witness: on an empty filesystem the CLI exits 1 and changes
nothing. -/
theorem C9_witness :
    fsLookup [] "nope.bin" = none ∧
    cliMain false (fun a b => (a, b)) (fun a => a) []
      ["prog", "embed", "nope.bin", "out.o"] = ([], 1) :=
  ⟨rfl, C9_missing_input false (fun a b => (a, b)) (fun a => a) [] "prog"
    "nope.bin" "out.o" rfl⟩

/-- Two permuted string lists have the same sorted form (sortedness plus
permutation determine a list over a linear order). -/
theorem insertionSort_eq_of_perm {l₁ l₂ : List String} (h : l₁.Perm l₂) :
    l₁.insertionSort (· ≤ ·) = l₂.insertionSort (· ≤ ·) :=
  List.eq_of_perm_of_sorted
    ((List.perm_insertionSort _ l₁).trans (h.trans
      (List.perm_insertionSort _ l₂).symm))
    (List.sorted_insertionSort _ l₁) (List.sorted_insertionSort _ l₂)

/-- C10: the GCC archive command sorts its object list, so any two
registries holding the same objects in any order produce
character-for-character identical archive commands and the same
static-library path. -/
theorem C10_lib_cmd_perm_invariant (name : String) (objs₁ objs₂ : List String)
    (h : objs₁.Perm objs₂) :
    ModiGCC.lib_cmd name objs₁ = ModiGCC.lib_cmd name objs₂ := by
  unfold ModiGCC.lib_cmd
  rw [insertionSort_eq_of_perm h]

/-- C10 witness: the two orders of `a.o`/`b.o` yield the identical
command/path pair. -/
theorem C10_witness :
    (["b.o", "a.o"] : List String).Perm ["a.o", "b.o"] ∧
    ModiGCC.lib_cmd "x" ["b.o", "a.o"] = ModiGCC.lib_cmd "x" ["a.o", "b.o"] :=
  ⟨List.Perm.swap "a.o" "b.o" [],
    C10_lib_cmd_perm_invariant "x" ["b.o", "a.o"] ["a.o", "b.o"]
      (List.Perm.swap "a.o" "b.o" [])⟩

end PyCxxBuilder
